import Mathlib

/-!
Verification development for the JARVIS assistant core: a shallow embedding
of the persistent context store (`backend/context_manager.py`), the remote
capability registry (`backend/tools/remotetools.py`) and the reminder
scheduler (`backend/tools/localtools.py`), together with theorems settling
the specification claims about them.

Machine conventions: wall-clock instants are modelled as `Int` seconds where
arithmetic matters (the scheduler) and as opaque `String` timestamps where
they are only stored; file and network effects are modelled by passing the
store contents and the network outcome explicitly.
-/

/-- Python list slicing `l[-n:]`: the last `n` elements of a list (the whole
list when it is shorter than `n`). -/
def lastN {α : Type} (n : Nat) (l : List α) : List α :=
  l.drop (l.length - n)

/-- Python substring test `needle in hay`. -/
def strContains (hay needle : String) : Bool :=
  decide (needle.data <:+: hay.data)

/-- Helper for `pySplit`: scan the characters, accumulating the current
word (in reverse). -/
def pySplitAux : List Char → List Char → List String
  | [], acc => if acc.isEmpty then [] else [String.mk acc.reverse]
  | c :: rest, acc =>
    if c.isWhitespace then
      if acc.isEmpty then pySplitAux rest []
      else String.mk acc.reverse :: pySplitAux rest []
    else pySplitAux rest (c :: acc)

/-- Python `str.split()` with no separator: split on whitespace runs,
dropping empty pieces. -/
def pySplit (s : String) : List String :=
  pySplitAux s.data []

/-- Python `str.lower()` (over the character list, so that it evaluates in
the kernel; `Char.toLower` matches CPython for the ASCII inputs used
here). -/
def strLower (s : String) : String :=
  ⟨s.data.map Char.toLower⟩

/-- Python `str.upper()`, over the character list. -/
def strUpper (s : String) : String :=
  ⟨s.data.map Char.toUpper⟩

/-- Python string slicing `s[:n]`. -/
def strTake (s : String) (n : Nat) : String :=
  ⟨s.data.take n⟩

/-- A single-quote character, used to model Python `str(KeyError(k))`. -/
def squote : String := String.singleton (Char.ofNat 39)

/-- Python renders `str(KeyError(k))` as the repr of the key: `'k'`. -/
def keyErrorStr (k : String) : String := squote ++ k ++ squote

/-! Persistent context store (`backend/context_manager.py`). -/

/-- Source `ConversationTurn` dataclass. -/
structure ConversationTurn where
  timestamp : String
  user_input : String
  assistant_response : String
  session_id : String
  context_type : String
deriving Repr, DecidableEq

/-- Source `UserProfile` dataclass. -/
structure UserProfile where
  name : String
  preferences : List (String × String)
  frequently_used_commands : List String
  last_interaction : Option String
deriving Repr, DecidableEq

/-- The `UserProfile()` default constructed by `__post_init__`. -/
def freshProfile : UserProfile :=
  { name := "Sir", preferences := [], frequently_used_commands := [],
    last_interaction := none }

/-- Contents of the JSON backing file `context_memory.json`: an optional
`user_profile` object and a `conversations` list (absent key modelled as
`none` / the empty list). -/
structure ContextFile where
  user_profile : Option UserProfile
  conversations : List ConversationTurn
deriving Repr, DecidableEq

/-- In-memory state of a `ContextManager` instance, together with the
backing file it reads and writes (`none` = file does not exist). -/
structure ContextManager where
  context_file : Option ContextFile
  max_history : Nat
  current_session_id : String
  current_session : List ConversationTurn
  history : List ConversationTurn
  user_profile : UserProfile
deriving Repr, DecidableEq

/-- Source `ContextManager.__init__` followed by `_load_context`: a missing
file yields a fresh empty state; otherwise the profile is taken from the
file when present, the full history is loaded, and the bounded session
window (a `deque(maxlen=5)`) is seeded with the last five turns. -/
def load_context (file : Option ContextFile) (sid : String) (maxh : Nat) :
    ContextManager :=
  match file with
  | none =>
      { context_file := none, max_history := maxh, current_session_id := sid,
        current_session := [], history := [], user_profile := freshProfile }
  | some f =>
      { context_file := some f, max_history := maxh, current_session_id := sid,
        current_session := lastN 5 f.conversations,
        history := f.conversations,
        user_profile := f.user_profile.getD freshProfile }

/-- Source `ContextManager._save_context`: the file's `user_profile` is
overwritten with the in-memory profile and its `conversations` are replaced
by the in-memory history truncated to the last `max_history` turns. -/
def save_context (st : ContextManager) : ContextManager :=
  { st with
    context_file := some ({ user_profile := some st.user_profile,
                            conversations := lastN st.max_history st.history }) }

/-- The fixed command vocabulary scanned by `_update_user_preferences`. -/
def command_keywords : List String :=
  ["create", "write", "read", "execute", "remind", "list"]

/-- Loop body of `_update_user_preferences` for one keyword: a keyword
occurring in the lowered input is appended when absent, while a present
keyword only triggers the trim-to-last-10 when the list already has more
than 10 entries. -/
def updateStep (low : String) (cs : List String) (kw : String) : List String :=
  if strContains low kw then
    if cs.contains kw then
      if cs.length > 10 then lastN 10 cs else cs
    else cs ++ [kw]
  else cs

/-- The keyword scan of `_update_user_preferences`. -/
def updateCommands (cmds : List String) (low : String) : List String :=
  command_keywords.foldl (updateStep low) cmds

/-- Source `ContextManager._update_user_preferences`. -/
def update_user_preferences (p : UserProfile) (user_input : String) :
    UserProfile :=
  { p with frequently_used_commands :=
      updateCommands p.frequently_used_commands (strLower user_input) }

/-- Source `ContextManager.add_conversation_turn`: append the turn to the
session window (capacity 5, oldest evicted) and the unbounded history,
update the profile, and autosave when the session window length is a
multiple of 5. Returns the new state and whether a save was performed. -/
def add_conversation_turn (st : ContextManager)
    (timestamp user_input assistant_response context_type : String) :
    ContextManager × Bool :=
  let turn : ConversationTurn :=
    { timestamp := timestamp, user_input := user_input,
      assistant_response := assistant_response,
      session_id := st.current_session_id, context_type := context_type }
  let session := lastN 5 (st.current_session ++ [turn])
  let profile :=
    update_user_preferences
      { st.user_profile with last_interaction := some timestamp } user_input
  let st1 := { st with current_session := session,
                       history := st.history ++ [turn],
                       user_profile := profile }
  if session.length % 5 == 0 then (save_context st1, true) else (st1, false)

/-- Match test of `get_relevant_context`: some whitespace token of the
lowered query occurs as a substring of the lowered `user_input`. -/
def turnMatches (words : List String) (t : ConversationTurn) : Bool :=
  words.any (fun w => strContains (strLower t.user_input) w)

/-- The collection loop of `get_relevant_context`: walk the reversed
history, append each matching turn, and break once three are collected. -/
def collectRelevantAux (words : List String) :
    List ConversationTurn → List ConversationTurn → List ConversationTurn
  | acc, [] => acc
  | acc, t :: rest =>
    if turnMatches words t then
      if (acc ++ [t]).length ≥ 3 then acc ++ [t]
      else collectRelevantAux words (acc ++ [t]) rest
    else collectRelevantAux words acc rest

/-- The `relevant_turns` list built by `get_relevant_context` (in
newest-first collection order). -/
def relevant_turns (st : ContextManager) (current_input : String) :
    List ConversationTurn :=
  collectRelevantAux (pySplit (strLower current_input)) [] st.history.reverse

/-- The turns rendered by `get_relevant_context`, in output (oldest-first)
order: `reversed(relevant_turns)`. -/
def relevant_output (st : ContextManager) (current_input : String) :
    List ConversationTurn :=
  (relevant_turns st current_input).reverse

/-- Source `ContextManager.get_relevant_context`: empty when the session
window is empty or nothing matches; otherwise renders the matches
oldest-first, truncating each response to 150 characters. -/
def get_relevant_context (st : ContextManager) (current_input : String) :
    String :=
  if st.current_session.isEmpty then "" else
  let rel := relevant_turns st current_input
  if rel.isEmpty then "" else
  (relevant_output st current_input).foldl
    (fun acc t =>
      acc ++ "Previously - User: " ++ t.user_input ++ "\nAssistant: "
          ++ strTake t.assistant_response 150 ++ "...\n---\n")
    "## Relevant Previous Context:\n"

/-- Source `ContextManager.clean_context_file`: write an empty JSON object
to the backing file, clear the session window, reset the profile and the
session id. The in-memory `history` list is not touched. -/
def clean_context_file (st : ContextManager) (new_sid : String) :
    ContextManager :=
  { st with
    context_file := some ({ user_profile := none, conversations := [] }),
    current_session := [],
    user_profile := freshProfile,
    current_session_id := new_sid }

/-- One call's worth of arguments to `add_conversation_turn`. -/
structure TurnInput where
  timestamp : String
  user_input : String
  assistant_response : String
  context_type : String
deriving Repr, DecidableEq

/-- The `ConversationTurn` that `add_conversation_turn` builds from its
arguments in a session with id `sid`. -/
def mkTurn (sid : String) (i : TurnInput) : ConversationTurn :=
  { timestamp := i.timestamp, user_input := i.user_input,
    assistant_response := i.assistant_response, session_id := sid,
    context_type := i.context_type }

/-- Record a sequence of turns, threading the state. -/
def runTurns (st : ContextManager) : List TurnInput → ContextManager
  | [] => st
  | i :: rest =>
      runTurns
        (add_conversation_turn st i.timestamp i.user_input
          i.assistant_response i.context_type).fst rest

/-- The autosave decisions made while recording a sequence of turns. -/
def saveFlags (st : ContextManager) : List TurnInput → List Bool
  | [] => []
  | i :: rest =>
      let r := add_conversation_turn st i.timestamp i.user_input
        i.assistant_response i.context_type
      r.snd :: saveFlags r.fst rest

/-- A freshly constructed `ContextManager` with no backing file. -/
def freshState (sid : String) (maxh : Nat) : ContextManager :=
  load_context none sid maxh

/-- Specification-side predicate: the query and the input share at least
one whitespace-delimited, case-folded token (the relevance criterion the
specification describes). -/
def sharesToken (query input : String) : Bool :=
  (pySplit (strLower query)).any
    (fun w => (pySplit (strLower input)).contains w)

/-- Specification-side recency order: the distinct used keywords ordered by
their most recent use, most-recent-last. -/
def recencyOrder (uses : List String) : List String :=
  (uses.reverse.foldl
    (fun acc u => if acc.contains u then acc else acc ++ [u]) []).reverse

/-- The command list of the profile after recording a sequence of turns
from a fresh state. -/
def commandsAfter (sid : String) (maxh : Nat) (L : List TurnInput) :
    List String :=
  (runTurns (freshState sid maxh) L).user_profile.frequently_used_commands

/-! Remote capability registry (`backend/tools/remotetools.py`). -/

/-- One entry of the discovery response's `tools` list; each field may be
absent (a malformed entry). -/
structure RawToolEntry where
  name : Option String
  description : Option String
  endpoint : Option String
  method : Option String
deriving Repr, DecidableEq

/-- State of a `RemoteToolsManager`: the registered LangChain tool names
(`self.tools`, modelled by the names) and the descriptor dictionary
`self.tool_configs` (insertion-ordered, as a Python dict is). -/
structure RemoteToolsManager where
  base_url : String
  tools : List String
  tool_configs : List (String × RawToolEntry)
deriving Repr, DecidableEq

/-- Python dict assignment `d[k] = v`: overwrite in place when the key
exists, append otherwise. -/
def dictInsert (d : List (String × RawToolEntry)) (k : String)
    (v : RawToolEntry) : List (String × RawToolEntry) :=
  if d.any (fun p => p.fst == k) then
    d.map (fun p => if p.fst == k then (k, v) else p)
  else d ++ [(k, v)]

/-- Python `k in d` on the descriptor dictionary. -/
def isKey (d : List (String × RawToolEntry)) (k : String) : Bool :=
  d.any (fun p => p.fst == k)

/-- Python `d[k]` lookup on the descriptor dictionary. -/
def lookupConfig (d : List (String × RawToolEntry)) (k : String) :
    Option RawToolEntry :=
  (d.find? (fun p => p.fst == k)).map (fun p => p.snd)

/-- Loop body of `_register_tools` for one entry: a missing `name` raises
inside the per-entry `try` and the entry is skipped; otherwise the config
is stored first, and only if `_create_langchain_tool` succeeds (which needs
`description`) is the tool name appended to `self.tools`. -/
def register_one (st : RemoteToolsManager) (e : RawToolEntry) :
    RemoteToolsManager :=
  match e.name with
  | none => st
  | some n =>
    let st1 := { st with tool_configs := dictInsert st.tool_configs n e }
    match e.description with
    | none => st1
    | some _ => { st1 with tools := st1.tools ++ [n] }

/-- Source `RemoteToolsManager._register_tools`: register each entry in
order. Note that the existing `tools` and `tool_configs` are not cleared
first. -/
def register_tools (st : RemoteToolsManager) (es : List RawToolEntry) :
    RemoteToolsManager :=
  es.foldl register_one st

/-- Outcome of the discovery HTTP request, as distinguished by the source's
exception handlers: a response with a status and an optional `tools` field,
a connection error, a timeout, or any other raised error. -/
inductive DiscoverOutcome where
  | httpResponse (status : Nat) (toolsField : Option (List RawToolEntry))
  | connectionError
  | timeout
  | otherFailure
deriving Repr, DecidableEq

/-- Source `RemoteToolsManager.discover_tools`: on a 200 response register
`tools_data.get('tools', [])` and return `True`; on any other status or any
raised error return `False` with the state untouched. -/
def discover_tools (st : RemoteToolsManager) (outcome : DiscoverOutcome) :
    RemoteToolsManager × Bool :=
  match outcome with
  | .httpResponse status toolsField =>
      if status == 200 then (register_tools st (toolsField.getD []), true)
      else (st, false)
  | .connectionError => (st, false)
  | .timeout => (st, false)
  | .otherFailure => (st, false)

/-! A small JSON value model for invocation response bodies. -/

/-- Parsed JSON values, as produced by `response.json()`. -/
inductive JsonVal where
  | jstr (s : String)
  | jnum (n : Int)
  | jbool (b : Bool)
  | jnull
  | jarr (xs : List JsonVal)
  | jobj (fields : List (String × JsonVal))

/-- Python truthiness of a parsed JSON value. -/
def jsonTruthy : JsonVal → Bool
  | .jstr s => !(s == "")
  | .jnum n => !(n == 0)
  | .jbool b => b
  | .jnull => false
  | .jarr xs => !xs.isEmpty
  | .jobj fs => !fs.isEmpty

/-- Python `dict.get(k)` on a JSON object's fields. -/
def jsonGet (fs : List (String × JsonVal)) (k : String) : Option JsonVal :=
  (fs.find? (fun p => p.fst == k)).map (fun p => p.snd)

mutual

/-- Rendering of a parsed JSON value into the formatted response text;
scalars follow Python `str()` exactly, containers are rendered recursively
(standing in for `json.dumps`, whose exact layout no claim depends on). -/
def renderVal : JsonVal → String
  | .jstr s => s
  | .jnum n => toString n
  | .jbool b => if b then ("True") else ("False")
  | .jnull => "None"
  | .jarr xs => "[" ++ renderList xs ++ "]"
  | .jobj fs => "\x7b" ++ renderFields fs ++ "\x7d"

/-- Comma-joined rendering of a JSON array's elements. -/
def renderList : List JsonVal → String
  | [] => ""
  | [x] => renderVal x
  | x :: xs => renderVal x ++ ", " ++ renderList xs

/-- Comma-joined rendering of a JSON object's fields. -/
def renderFields : List (String × JsonVal) → String
  | [] => ""
  | [(k, v)] => k ++ ": " ++ renderVal v
  | (k, v) :: fs => k ++ ": " ++ renderVal v ++ ", " ++ renderFields fs

end

/-- The timeout failure string of `_execute_remote_tool`. -/
def timeoutMsg (n : String) : String :=
  "❌ " ++ n ++ " timed out after 30 seconds"

/-- The connection-failure string of `_execute_remote_tool`. -/
def connErrorMsg (n : String) : String :=
  "❌ Could not connect to remote service for " ++ n

/-- The non-200 failure string of `_execute_remote_tool`. -/
def httpErrorMsg (n : String) (status : Nat) (text : String) : String :=
  "❌ " ++ n ++ " failed with HTTP " ++ toString status ++ ": " ++ text

/-- The application-level failure string of `_format_tool_response` for an
envelope whose `success` field is falsy. -/
def appErrorMsg (n e : String) : String :=
  "❌ " ++ n ++ " failed: " ++ e

/-- The failure string of `_format_tool_response` for an envelope with an
`error` field but no `success` field. -/
def errKeyMsg (n e : String) : String :=
  "❌ " ++ n ++ " error: " ++ e

/-- The generic exception string of `_execute_remote_tool`. -/
def execErrorMsg (n e : String) : String :=
  "❌ Error executing " ++ n ++ ": " ++ e

/-- Python `str.strip()`. -/
def pyStrip (s : String) : String :=
  ⟨((s.data.dropWhile Char.isWhitespace).reverse.dropWhile
      Char.isWhitespace).reverse⟩

/-- The `data` rendering of the success branch of `_format_tool_response`:
lists and dicts go through `json.dumps`, everything else through `str()`. -/
def formatData (data : JsonVal) : String :=
  match data with
  | .jarr xs => "\n📊 Data: " ++ renderVal (.jarr xs)
  | .jobj fs => "\n📊 Data: " ++ renderVal (.jobj fs)
  | d => "\n📊 Data: " ++ renderVal d

/-- The general (no `success`, no `error`) branch of
`_format_tool_response`: one line per field, then `strip()`. -/
def formatGeneral (n : String) (fs : List (String × JsonVal)) : String :=
  pyStrip
    (fs.foldl
      (fun acc p => acc ++ "📋 " ++ p.fst ++ ": " ++ renderVal p.snd ++ "\n")
      ("✅ " ++ n ++ " response:\n"))

/-- Source `RemoteToolsManager._format_tool_response`. -/
def format_tool_response (tool_name : String) (result : JsonVal) : String :=
  match result with
  | .jobj fs =>
    match jsonGet fs "success" with
    | some sv =>
      if jsonTruthy sv then
        let message := (jsonGet fs "message").getD (.jstr "")
        let data := (jsonGet fs "data").getD (.jstr "")
        ("✅ " ++ tool_name ++ " completed successfully")
          ++ (if jsonTruthy message then "\n💬 " ++ renderVal message else "")
          ++ (if jsonTruthy data then formatData data else "")
      else
        appErrorMsg tool_name
          (renderVal ((jsonGet fs "error").getD (.jstr "Unknown error")))
    | none =>
      match jsonGet fs "error" with
      | some e => errKeyMsg tool_name (renderVal e)
      | none => formatGeneral tool_name fs
  | other => "✅ " ++ tool_name ++ " result: " ++ renderVal other

/-- Outcome of one invocation HTTP request, as distinguished by the
source's handlers: a 200 with a JSON body, a 200 whose body fails JSON
decoding, a non-200 response, a timeout, a connection error, or any other
raised error with its `str(e)` text. -/
inductive HttpOutcome where
  | jsonOk (body : JsonVal)
  | textOk (text : String)
  | httpError (status : Nat) (text : String)
  | timeout
  | connectionError
  | raised (msg : String)

/-- Source `RemoteToolsManager._execute_remote_tool`, with the network's
behaviour passed in as `outcome`. Returns the formatted response string and
whether a network request was issued. A name absent from `tool_configs`
raises `KeyError` before any request is made; the generic handler turns it
into the `execErrorMsg` string. -/
def execute_remote_tool (st : RemoteToolsManager) (tool_name : String)
    (outcome : HttpOutcome) : String × Bool :=
  match lookupConfig st.tool_configs tool_name with
  | none => (execErrorMsg tool_name (keyErrorStr tool_name), false)
  | some cfg =>
    match cfg.endpoint with
    | none => (execErrorMsg tool_name (keyErrorStr "endpoint"), false)
    | some _ =>
      match cfg.method with
      | none => (execErrorMsg tool_name (keyErrorStr "method"), false)
      | some m =>
        if strUpper m == "POST" || strUpper m == "GET" then
          match outcome with
          | .jsonOk body => (format_tool_response tool_name body, true)
          | .textOk t =>
              ("✅ " ++ tool_name ++ " completed successfully:\n" ++ t, true)
          | .httpError status text =>
              (httpErrorMsg tool_name status text, true)
          | .timeout => (timeoutMsg tool_name, true)
          | .connectionError => (connErrorMsg tool_name, true)
          | .raised msg => (execErrorMsg tool_name msg, true)
        else ("❌ Unsupported HTTP method: " ++ m, false)

/-! Reminder scheduler (`backend/tools/localtools.py`). -/

/-- One stored reminder record, with times in seconds. -/
structure Obligation where
  id : Nat
  task : String
  description : String
  fire_at : Int
  created_at : Int
  completed : Bool
  notified : Bool
deriving Repr, DecidableEq

/-- The firing condition of one scheduler cycle for one reminder:
not completed, not yet notified, and `0 <= now - fire_at <= 60`. -/
def shouldFire (now : Int) (r : Obligation) : Bool :=
  !r.completed && !r.notified
    && decide (0 ≤ now - r.fire_at) && decide (now - r.fire_at ≤ 60)

/-- Effect of one cycle on one reminder record. -/
def stepOb (now : Int) (r : Obligation) : Obligation :=
  if shouldFire now r then { r with notified := true } else r

/-- The scan loop of `reminder_scheduler` over the freshly loaded store:
returns the store as persisted at the end of the cycle and the reminders
for which a notification was emitted, in scan order. -/
def cycleAux (now : Int) :
    List Obligation → List Obligation × List Obligation
  | [] => ([], [])
  | r :: rest =>
    if !r.completed && !r.notified then
      if 0 ≤ now - r.fire_at ∧ now - r.fire_at ≤ 60 then
        let p := cycleAux now rest
        ({ r with notified := true } :: p.fst, r :: p.snd)
      else
        let p := cycleAux now rest
        (r :: p.fst, p.snd)
    else
      let p := cycleAux now rest
      (r :: p.fst, p.snd)

/-- The obligation store after one scheduler cycle at time `now`. -/
def scheduler_cycle (now : Int) (rs : List Obligation) : List Obligation :=
  (cycleAux now rs).fst

/-- The reminders fired (notification emitted) during one cycle. -/
def fired (now : Int) (rs : List Obligation) : List Obligation :=
  (cycleAux now rs).snd

/-- How many times one reminder fires across a sequence of scheduler
cycles run at the given times. -/
def fireCount : List Int → Obligation → Nat
  | [], _ => 0
  | t :: ts, r => (if shouldFire t r then 1 else 0) + fireCount ts (stepOb t r)

/-! Concrete inputs for counterexamples and witnesses. -/

/-- A turn whose user input is the single word `cat`. -/
def catTurn : ConversationTurn :=
  { timestamp := "t1", user_input := "cat", assistant_response := "meow",
    session_id := "s", context_type := "general" }

/-- A one-turn context state around `catTurn`. -/
def c2State : ContextManager :=
  { context_file := none, max_history := 100, current_session_id := "s",
    current_session := [catTurn], history := [catTurn],
    user_profile := freshProfile }

/-- Seven identical recorded turns. -/
def c3Inputs : List TurnInput :=
  List.replicate 7
    { timestamp := "t", user_input := "hello", assistant_response := "ok",
      context_type := "general" }

/-- Turn inputs using the command keywords create, write, create. -/
def c6Inputs : List TurnInput :=
  [ { timestamp := "t1", user_input := "create", assistant_response := "r",
      context_type := "general" },
    { timestamp := "t2", user_input := "write", assistant_response := "r",
      context_type := "general" },
    { timestamp := "t3", user_input := "create", assistant_response := "r",
      context_type := "general" } ]

/-- A well-formed discovered capability named `a`. -/
def entryA : RawToolEntry :=
  { name := some ("a"), description := some ("da"),
    endpoint := some ("/a"), method := some ("GET") }

/-- A well-formed discovered capability named `b`. -/
def entryB : RawToolEntry :=
  { name := some ("b"), description := some ("db"),
    endpoint := some ("/b"), method := some ("POST") }

/-- A registry state holding descriptor `a` from an earlier discovery. -/
def regA : RemoteToolsManager :=
  { base_url := "http://localhost:8000", tools := ["a"],
    tool_configs := [("a", entryA)] }

/-- A reminder due 30 seconds before time 30. -/
def obW : Obligation :=
  { id := 1, task := "tea", description := "", fire_at := 0,
    created_at := -100, completed := false, notified := false }

/-! Helper lemmas about `lastN`. -/

theorem lastN_eq_rtake {α : Type} (n : Nat) (l : List α) :
    lastN n l = l.rtake n := rfl

theorem lastN_eq_reverse_take {α : Type} (n : Nat) (l : List α) :
    lastN n l = (l.reverse.take n).reverse := by
  rw [lastN_eq_rtake, List.rtake_eq_reverse_take_reverse]

theorem take_append_take_eq {α : Type} (u v : List α) (n : Nat) :
    (u ++ v.take n).take n = (u ++ v).take n := by
  rw [List.take_append_eq_append_take, List.take_append_eq_append_take,
    List.take_take, Nat.min_eq_left (Nat.sub_le n u.length)]

theorem lastN_append_lastN {α : Type} (n : Nat) (a b : List α) :
    lastN n (lastN n a ++ b) = lastN n (a ++ b) := by
  simp only [lastN_eq_reverse_take, List.reverse_append, List.reverse_reverse]
  rw [take_append_take_eq]

theorem lastN_length {α : Type} (n : Nat) (l : List α) :
    (lastN n l).length = min n l.length := by
  simp only [lastN, List.length_drop]
  omega

theorem lastN_of_le {α : Type} {n : Nat} {l : List α} (h : l.length ≤ n) :
    lastN n l = l := by
  simp [lastN, Nat.sub_eq_zero_of_le h]

theorem lastN_suffix {α : Type} (n : Nat) (l : List α) : lastN n l <:+ l :=
  List.drop_suffix _ _

/-! Behaviour of `add_conversation_turn` and `runTurns`. -/

theorem add_turn_fst (st : ContextManager) (ts ui ar ct : String) :
    (add_conversation_turn st ts ui ar ct).fst.history
        = st.history ++ [mkTurn st.current_session_id ⟨ts, ui, ar, ct⟩]
    ∧ (add_conversation_turn st ts ui ar ct).fst.current_session
        = lastN 5 (st.current_session
            ++ [mkTurn st.current_session_id ⟨ts, ui, ar, ct⟩])
    ∧ (add_conversation_turn st ts ui ar ct).fst.current_session_id
        = st.current_session_id
    ∧ (add_conversation_turn st ts ui ar ct).fst.max_history
        = st.max_history := by
  simp only [add_conversation_turn]
  split <;> simp [save_context, mkTurn]

theorem runTurns_spec (L : List TurnInput) (st : ContextManager)
    (h : st.current_session.length ≤ 5) :
    (runTurns st L).history
        = st.history ++ L.map (mkTurn st.current_session_id)
    ∧ (runTurns st L).current_session
        = lastN 5 (st.current_session ++ L.map (mkTurn st.current_session_id))
    ∧ (runTurns st L).current_session_id = st.current_session_id := by
  induction L generalizing st with
  | nil =>
      simp [runTurns, lastN_of_le h]
  | cons i L ih =>
      obtain ⟨h1, h2, h3, h4⟩ :=
        add_turn_fst st i.timestamp i.user_input i.assistant_response
          i.context_type
      have hlen : (add_conversation_turn st i.timestamp i.user_input
          i.assistant_response i.context_type).fst.current_session.length
            ≤ 5 := by
        rw [h2, lastN_length]; omega
      obtain ⟨g1, g2, g3⟩ :=
        ih (add_conversation_turn st i.timestamp i.user_input
          i.assistant_response i.context_type).fst hlen
      refine ⟨?_, ?_, ?_⟩
      · rw [runTurns, g1, h1, h3]
        simp [List.append_assoc]
      · rw [runTurns, g2, h2, h3, lastN_append_lastN]
        simp [List.append_assoc]
      · rw [runTurns, g3, h3]

/-- Claim C5: after recording K > 5 turns from a fresh state, the session
window holds exactly the last five recorded turns in append order (the
capacity of the source deque is 5), and the full history holds all of them
in order. -/
theorem session_window_bound (sid : String) (maxh : Nat) (L : List TurnInput)
    (h : 5 < L.length) :
    (runTurns (freshState sid maxh) L).history = L.map (mkTurn sid)
    ∧ (runTurns (freshState sid maxh) L).current_session
        = lastN 5 (L.map (mkTurn sid))
    ∧ (runTurns (freshState sid maxh) L).current_session.length = 5 := by
  obtain ⟨h1, h2, h3⟩ :=
    runTurns_spec L (freshState sid maxh) (by simp [freshState, load_context])
  refine ⟨?_, ?_, ?_⟩
  · simpa [freshState, load_context] using h1
  · simpa [freshState, load_context] using h2
  · rw [h2]
    simp only [freshState, load_context, List.nil_append, lastN_length,
      List.length_map]
    omega

/-- Witness for C5 at a concrete run of seven turns. -/
theorem session_window_bound_witness :
    (runTurns (freshState "s" 100) c3Inputs).current_session.length = 5 :=
  (session_window_bound "s" 100 c3Inputs (by decide)).2.2

/-- Claim C3 (code bug): recording seven turns from a fresh state autosaves
on turns 5, 6 and 7 — once the five-slot session deque is full its length
stays 5, so `len(current_session) % 5 == 0` holds on every later turn, not
only on turn counts that are multiples of 5 (6 % 5 ≠ 0). -/
theorem autosave_after_window_fills :
    saveFlags (freshState "s" 100) c3Inputs
      = [false, false, false, false, true, true, true]
    ∧ (6 : Nat) % 5 ≠ 0 := by
  exact ⟨by decide, by decide⟩

/-- Claim C9: saving and then loading yields the same profile, and the
loaded history is the last `max_history` turns of the saved history. -/
theorem save_load_roundtrip (st : ContextManager) (sid2 : String)
    (hne : st.history ≠ []) :
    (load_context (save_context st).context_file sid2 st.max_history).user_profile
        = st.user_profile
    ∧ (load_context (save_context st).context_file sid2 st.max_history).history
        = lastN st.max_history st.history := by
  simp [save_context, load_context]

/-- Witness for C9 at a concrete one-turn state. -/
theorem save_load_roundtrip_witness :
    (load_context (save_context c2State).context_file "s2"
        c2State.max_history).history
      = lastN c2State.max_history c2State.history :=
  (save_load_roundtrip c2State "s2" (by decide)).2

/-- Claim C10: `clean_context_file` empties the backing file, clears the
session window, resets the profile and session id, but leaves the
in-memory history untouched, so the next save writes the old turns back to
the backing store. -/
theorem reset_keeps_history (st : ContextManager) (sid2 : String) :
    (clean_context_file st sid2).history = st.history
    ∧ (clean_context_file st sid2).context_file
        = some ({ user_profile := none, conversations := [] })
    ∧ (clean_context_file st sid2).current_session = []
    ∧ (clean_context_file st sid2).user_profile = freshProfile
    ∧ (clean_context_file st sid2).current_session_id = sid2
    ∧ (save_context (clean_context_file st sid2)).context_file
        = some ({ user_profile := some freshProfile,
                  conversations := lastN st.max_history st.history }) := by
  simp [clean_context_file, save_context]

/-! Relevance retrieval (claim C2). -/

theorem collectRelevantAux_spec (words : List String)
    (l : List ConversationTurn) :
    ∀ acc : List ConversationTurn, acc.length < 3 →
      collectRelevantAux words acc l
        = acc ++ (l.filter (turnMatches words)).take (3 - acc.length) := by
  induction l with
  | nil => intro acc _; simp [collectRelevantAux]
  | cons t rest ih =>
      intro acc hacc
      simp only [collectRelevantAux]
      by_cases hm : turnMatches words t = true
      · simp only [hm, if_true, List.filter_cons_of_pos]
        by_cases h3 : (acc ++ [t]).length ≥ 3
        · simp only [h3, if_pos]
          have hlen : 3 - acc.length = 1 := by
            simp only [List.length_append, List.length_singleton] at h3
            omega
          rw [hlen]
          simp
        · simp only [h3, if_neg, not_false_eq_true]
          have hlt : (acc ++ [t]).length < 3 := by omega
          rw [ih (acc ++ [t]) hlt]
          have hlen : 3 - acc.length = (3 - (acc ++ [t]).length) + 1 := by
            simp only [List.length_append, List.length_singleton] at h3 ⊢
            omega
          rw [hlen, List.take_succ_cons, List.append_assoc]
          simp
      · simp only [hm]
        rw [if_neg (by simp [hm]), ih acc hacc,
          List.filter_cons_of_neg (by simp [hm])]

theorem relevant_turns_eq (st : ContextManager) (q : String) :
    relevant_turns st q
      = ((st.history.filter (turnMatches (pySplit (strLower q)))).reverse).take 3
      := by
  rw [relevant_turns, collectRelevantAux_spec _ _ [] (by decide)]
  simp [List.filter_reverse]

theorem relevant_output_eq (st : ContextManager) (q : String) :
    relevant_output st q
      = lastN 3 (st.history.filter (turnMatches (pySplit (strLower q)))) := by
  rw [relevant_output, relevant_turns_eq, lastN_eq_reverse_take]

/-- Claim C2 counterexample: the query token `at` shares no whole token
with the turn input `cat`, yet the turn is selected and rendered, because
the source tests substring containment, not token intersection. -/
theorem relevant_context_counterexample :
    sharesToken "at" "cat" = false
    ∧ relevant_output c2State "at" = [catTurn]
    ∧ get_relevant_context c2State "at" ≠ "" := by
  exact ⟨by decide, by decide, by decide⟩

/-- Claim C2 as amended: the turns returned are exactly the last three (in
chronological order, hence oldest-first) turns of the history whose
case-folded `user_input` contains some whitespace token of the case-folded
query as a substring; and the rendered result is empty whenever the session
window is empty, regardless of the history. -/
theorem relevant_context_amended (st : ContextManager) (q : String) :
    relevant_output st q
      = lastN 3 (st.history.filter (turnMatches (pySplit (strLower q))))
    ∧ (st.current_session = [] → get_relevant_context st q = "") := by
  refine ⟨relevant_output_eq st q, ?_⟩
  intro h
  simp [get_relevant_context, h]

/-- Witness for the amended C2 at concrete states. -/
theorem relevant_context_amended_witness :
    relevant_output c2State "at"
      = lastN 3 (c2State.history.filter
          (turnMatches (pySplit (strLower ("at")))))
    ∧ get_relevant_context (freshState "s" 100) "at" = "" :=
  ⟨(relevant_context_amended c2State "at").1,
   (relevant_context_amended (freshState "s" 100) "at").2 rfl⟩

/-! Command-preference learning (claim C6). -/

theorem updateStep_inv (low kw : String) (cs : List String)
    (h1 : cs.Nodup) (h2 : cs ⊆ command_keywords)
    (hk : kw ∈ command_keywords) :
    (updateStep low cs kw).Nodup
    ∧ updateStep low cs kw ⊆ command_keywords
    ∧ ∃ new, updateStep low cs kw = cs ++ new := by
  have hlen : cs.length ≤ command_keywords.length :=
    (List.Nodup.subperm h1 h2).length_le
  have hlen6 : command_keywords.length = 6 := by decide
  unfold updateStep
  by_cases hc : strContains low kw = true
  · simp only [hc, if_true]
    by_cases hmem : cs.contains kw = true
    · have hgt : ¬ cs.length > 10 := by omega
      simp only [hmem, if_true, hgt, if_neg, not_false_eq_true]
      exact ⟨h1, h2, [], by simp⟩
    · have hnot : kw ∉ cs := by simpa using hmem
      simp only [hmem, if_false]
      refine ⟨?_, ?_, [kw], rfl⟩
      · simp [List.nodup_append, h1, hnot]
      · simp [List.append_subset, h2, hk]
  · simp only [hc, if_false]
    exact ⟨h1, h2, [], by simp⟩

theorem foldl_updateStep_inv (low : String) (ks : List String) :
    ∀ cs : List String, cs.Nodup → cs ⊆ command_keywords →
      (∀ k ∈ ks, k ∈ command_keywords) →
      ((ks.foldl (updateStep low) cs).Nodup
        ∧ ks.foldl (updateStep low) cs ⊆ command_keywords
        ∧ ∃ new, ks.foldl (updateStep low) cs = cs ++ new) := by
  induction ks with
  | nil => intro cs h1 h2 _; exact ⟨h1, h2, [], by simp⟩
  | cons k ks ih =>
      intro cs h1 h2 hks
      obtain ⟨n1, n2, new1, hnew1⟩ :=
        updateStep_inv low k cs h1 h2 (hks k (by simp))
      obtain ⟨m1, m2, new2, hnew2⟩ :=
        ih (updateStep low cs k) n1 n2 (fun x hx => hks x (by simp [hx]))
      refine ⟨by simpa using m1, by simpa using m2, new1 ++ new2, ?_⟩
      simp only [List.foldl_cons]
      rw [hnew2, hnew1, List.append_assoc]

theorem updateCommands_inv (cs : List String) (low : String)
    (h1 : cs.Nodup) (h2 : cs ⊆ command_keywords) :
    (updateCommands cs low).Nodup
    ∧ updateCommands cs low ⊆ command_keywords
    ∧ ∃ new, updateCommands cs low = cs ++ new :=
  foldl_updateStep_inv low command_keywords cs h1 h2 (fun _ hk => hk)

theorem add_turn_commands (st : ContextManager) (ts ui ar ct : String) :
    (add_conversation_turn st ts ui ar ct).fst.user_profile.frequently_used_commands
      = updateCommands st.user_profile.frequently_used_commands
          (strLower ui) := by
  simp only [add_conversation_turn]
  split <;> simp [save_context, update_user_preferences]

theorem runTurns_commands_inv (L : List TurnInput) (st : ContextManager)
    (h1 : st.user_profile.frequently_used_commands.Nodup)
    (h2 : st.user_profile.frequently_used_commands ⊆ command_keywords) :
    (runTurns st L).user_profile.frequently_used_commands.Nodup
    ∧ (runTurns st L).user_profile.frequently_used_commands
        ⊆ command_keywords := by
  induction L generalizing st with
  | nil => exact ⟨h1, h2⟩
  | cons i L ih =>
      have hc := add_turn_commands st i.timestamp i.user_input
        i.assistant_response i.context_type
      obtain ⟨n1, n2, _⟩ :=
        updateCommands_inv st.user_profile.frequently_used_commands
          (strLower i.user_input) h1 h2
      exact ih (add_conversation_turn st i.timestamp i.user_input
          i.assistant_response i.context_type).fst
        (by rw [hc]; exact n1) (by rw [hc]; exact n2)

theorem runTurns_append (st : ContextManager) (L M : List TurnInput) :
    runTurns st (L ++ M) = runTurns (runTurns st L) M := by
  induction L generalizing st with
  | nil => simp [runTurns]
  | cons i L ih => simp only [List.cons_append, runTurns]; exact ih _

/-- Claim C6 counterexample: recording the keyword uses create, write,
create in that order leaves the list as [create, write] — the most recently
used keyword create is not last, so insertion order reflects first use, not
recency. -/
theorem commands_recency_counterexample :
    (runTurns (freshState "s" 100) c6Inputs).user_profile.frequently_used_commands
      = ["create", "write"]
    ∧ recencyOrder ["create", "write", "create"] = ["write", "create"]
    ∧ (["create", "write"] : List String) ≠ ["write", "create"] := by
  exact ⟨by decide, by decide, by decide⟩

/-- Claim C6 as amended: over any run from a fresh state the command list
stays duplicate-free, drawn from the six-keyword vocabulary, and hence
never exceeds the cap of 10; and recording one further turn only ever
appends to it (an already-present keyword is left in place), so its order
reflects first use rather than recency. -/
theorem commands_cap_first_use (sid : String) (maxh : Nat)
    (L : List TurnInput) (i : TurnInput) :
    (commandsAfter sid maxh L).Nodup
    ∧ commandsAfter sid maxh L ⊆ command_keywords
    ∧ (commandsAfter sid maxh L).length ≤ 10
    ∧ ∃ new, commandsAfter sid maxh (L ++ [i])
        = commandsAfter sid maxh L ++ new := by
  have hfresh1 : (freshState sid maxh).user_profile.frequently_used_commands.Nodup := by
    simp [freshState, load_context, freshProfile]
  have hfresh2 : (freshState sid maxh).user_profile.frequently_used_commands
      ⊆ command_keywords := by
    simp [freshState, load_context, freshProfile]
  obtain ⟨n1, n2⟩ := runTurns_commands_inv L (freshState sid maxh) hfresh1 hfresh2
  refine ⟨n1, n2, ?_, ?_⟩
  · have hle : (commandsAfter sid maxh L).length ≤ command_keywords.length :=
      (List.Nodup.subperm n1 n2).length_le
    have h6 : command_keywords.length = 6 := by decide
    omega
  · obtain ⟨_, _, new, hnew⟩ :=
      updateCommands_inv (commandsAfter sid maxh L) (strLower i.user_input)
        n1 n2
    refine ⟨new, ?_⟩
    rw [commandsAfter, runTurns_append]
    simp only [runTurns]
    rw [add_turn_commands]
    exact hnew

/-! Capability discovery (claim C1). -/

theorem isKey_dictInsert (d : List (String × RawToolEntry)) (k kq : String)
    (v : RawToolEntry) (h : isKey d kq = true) :
    isKey (dictInsert d k v) kq = true := by
  unfold dictInsert
  by_cases hk : d.any (fun p => p.fst == k) = true
  · simp only [hk, if_true]
    simp only [isKey, List.any_map, List.any_eq_true, Function.comp] at h ⊢
    obtain ⟨p, hp, hbeq⟩ := h
    refine ⟨p, hp, ?_⟩
    by_cases hpk : (p.fst == k) = true
    · simp only [hpk, if_true]
      have h1 : p.fst = k := by simpa using hpk
      have h2 : p.fst = kq := by simpa using hbeq
      simp [← h1, h2]
    · simp [hpk, hbeq]
  · rw [if_neg hk]
    simp only [isKey, List.any_append, Bool.or_eq_true]
    exact Or.inl h

theorem isKey_register_one (st : RemoteToolsManager) (e : RawToolEntry)
    (k : String) (h : isKey st.tool_configs k = true) :
    isKey (register_one st e).tool_configs k = true := by
  unfold register_one
  cases hn : e.name with
  | none => exact h
  | some n =>
      cases hd : e.description with
      | none => exact isKey_dictInsert _ n k e h
      | some d => exact isKey_dictInsert _ n k e h

theorem isKey_register_tools (es : List RawToolEntry) :
    ∀ (st : RemoteToolsManager) (k : String),
      isKey st.tool_configs k = true →
      isKey (register_tools st es).tool_configs k = true := by
  induction es with
  | nil => intro st k h; exact h
  | cons e es ih =>
      intro st k h
      have h1 := isKey_register_one st e k h
      simpa [register_tools] using ih (register_one st e) k h1

/-- Claim C1 counterexample: starting from a registry that already holds
descriptor `a`, a successful discovery whose parsed list contains only `b`
returns success but leaves both `a` and `b` registered — the descriptor set
is merged with the prior epoch, not replaced by exactly the new list. -/
theorem discover_merge_counterexample :
    (discover_tools regA
        (DiscoverOutcome.httpResponse 200 (some [entryB]))).snd = true
    ∧ (discover_tools regA
        (DiscoverOutcome.httpResponse 200 (some [entryB]))).fst.tool_configs
          = [("a", entryA), ("b", entryB)]
    ∧ ([("a", entryA), ("b", entryB)] : List (String × RawToolEntry))
        ≠ [("b", entryB)] := by
  exact ⟨rfl, by decide, by decide⟩

/-- Claim C1 as amended: a failed discovery (non-200 status, connection
error, timeout, or other raised error) leaves the registry state exactly
unchanged and reports failure, while a successful discovery merges the new
entries into the existing descriptor dictionary — every previously
registered name is still a key afterwards. -/
theorem discover_amended (st : RemoteToolsManager)
    (outcome : DiscoverOutcome) :
    ((discover_tools st outcome).snd = false →
      (discover_tools st outcome).fst = st)
    ∧ (∀ k, isKey st.tool_configs k = true →
        isKey (discover_tools st outcome).fst.tool_configs k = true) := by
  cases outcome with
  | httpResponse status tf =>
      by_cases hs : (status == 200) = true
      · constructor
        · intro hfail
          simp [discover_tools, hs] at hfail
        · intro k hk
          simp only [discover_tools, hs, if_true]
          exact isKey_register_tools _ st k hk
      · constructor
        · intro _; simp [discover_tools, hs]
        · intro k hk; simpa [discover_tools, hs] using hk
  | connectionError => exact ⟨fun _ => rfl, fun _ hk => hk⟩
  | timeout => exact ⟨fun _ => rfl, fun _ hk => hk⟩
  | otherFailure => exact ⟨fun _ => rfl, fun _ hk => hk⟩

/-- Witness for the amended C1: a timed-out discovery leaves the concrete
registry untouched, and a successful one keeps the old key `a`. -/
theorem discover_amended_witness :
    (discover_tools regA DiscoverOutcome.timeout).fst = regA
    ∧ isKey (discover_tools regA
        (DiscoverOutcome.httpResponse 200 (some [entryB]))).fst.tool_configs
          ("a") = true :=
  ⟨(discover_amended regA DiscoverOutcome.timeout).1 rfl,
   (discover_amended regA
      (DiscoverOutcome.httpResponse 200 (some [entryB]))).2 ("a") rfl⟩

/-! Reminder scheduler (claim C4). -/

theorem shouldFire_iff (now : Int) (r : Obligation) :
    shouldFire now r = true
      ↔ (r.completed = false ∧ r.notified = false
          ∧ 0 ≤ now - r.fire_at ∧ now - r.fire_at ≤ 60) := by
  simp [shouldFire, Bool.and_eq_true, Bool.not_eq_true', decide_eq_true_iff,
    and_assoc]

theorem cycleAux_eq (now : Int) (rs : List Obligation) :
    (cycleAux now rs).fst = rs.map (stepOb now)
    ∧ (cycleAux now rs).snd = rs.filter (shouldFire now) := by
  induction rs with
  | nil => exact ⟨rfl, rfl⟩
  | cons r rest ih =>
      obtain ⟨ih1, ih2⟩ := ih
      simp only [cycleAux]
      by_cases h1 : (!r.completed && !r.notified) = true
      · rw [if_pos h1]
        by_cases h2 : 0 ≤ now - r.fire_at ∧ now - r.fire_at ≤ 60
        · rw [if_pos h2]
          have hsf : shouldFire now r = true := by
            simp only [Bool.and_eq_true, Bool.not_eq_true'] at h1
            exact (shouldFire_iff now r).mpr ⟨h1.1, h1.2, h2.1, h2.2⟩
          constructor
          · simp only [List.map_cons, ih1, stepOb, hsf, if_true]
          · simp only [List.filter_cons, hsf, if_true, ih2]
        · rw [if_neg h2]
          have hsf : shouldFire now r = false := by
            rw [← Bool.not_eq_true, shouldFire_iff]
            simp only [Bool.and_eq_true, Bool.not_eq_true'] at h1
            intro hcon
            exact h2 ⟨hcon.2.2.1, hcon.2.2.2⟩
          constructor
          · simp [ih1, stepOb, hsf]
          · simp [List.filter_cons, hsf, ih2]
      · rw [if_neg h1]
        have hsf : shouldFire now r = false := by
          rw [← Bool.not_eq_true, shouldFire_iff]
          simp only [Bool.and_eq_true, Bool.not_eq_true'] at h1
          intro hcon
          exact h1 ⟨hcon.1, hcon.2.1⟩
        constructor
        · simp [ih1, stepOb, hsf]
        · simp [List.filter_cons, hsf, ih2]

theorem fireCount_of_notified (ts : List Int) (r : Obligation)
    (h : r.notified = true) : fireCount ts r = 0 := by
  induction ts generalizing r with
  | nil => rfl
  | cons t ts ih =>
      have hsf : shouldFire t r = false := by
        simp [shouldFire, h]
      simp [fireCount, hsf, stepOb, ih r h]

theorem fireCount_le_one (ts : List Int) (r : Obligation) :
    fireCount ts r ≤ 1 := by
  induction ts generalizing r with
  | nil => simp [fireCount]
  | cons t ts ih =>
      by_cases h : shouldFire t r = true
      · simp only [fireCount, h, if_true, stepOb]
        rw [fireCount_of_notified ts _ rfl]
      · simp only [fireCount, h, if_false, stepOb]
        simpa [h] using ih r

/-- Claim C4: in one scheduler cycle an obligation fires (a notification is
emitted for it) exactly when it is not completed, not yet notified, and
`0 ≤ now − fire_at ≤ 60`; the persisted store maps each record through
`stepOb`, which sets `notified := true` exactly for the fired ones; and
across any sequence of further cycles one obligation fires at most once. -/
theorem obligation_firing (now : Int) (rs : List Obligation) (r : Obligation)
    (hr : r ∈ rs) (ts : List Int) :
    (r ∈ fired now rs ↔
      (r.completed = false ∧ r.notified = false
        ∧ 0 ≤ now - r.fire_at ∧ now - r.fire_at ≤ 60))
    ∧ scheduler_cycle now rs = rs.map (stepOb now)
    ∧ (shouldFire now r = true → stepOb now r = { r with notified := true })
    ∧ (shouldFire now r = false → stepOb now r = r)
    ∧ fireCount (now :: ts) r ≤ 1 := by
  obtain ⟨h1, h2⟩ := cycleAux_eq now rs
  refine ⟨?_, h1, fun h => by simp [stepOb, h], fun h => by simp [stepOb, h],
    fireCount_le_one _ r⟩
  rw [fired, h2, ← shouldFire_iff]
  simp [List.mem_filter, hr]

/-- Witness for C4: a due, unnotified reminder fires, and fires at most
once across two cycles. -/
theorem obligation_firing_witness :
    obW ∈ fired 30 [obW] ∧ fireCount [30, 60] obW ≤ 1 :=
  ⟨(obligation_firing 30 [obW] obW (by simp) [60]).1.mpr
      ⟨rfl, rfl, by decide, by decide⟩,
   (obligation_firing 30 [obW] obW (by simp) [60]).2.2.2.2⟩

/-! Invocation failure reporting (claims C7 and C8). -/

theorem append_ne_of_take_ne (p x y : String) (k : Nat)
    (h : x.data.take k ≠ y.data.take k) : p ++ x ≠ p ++ y := by
  intro he
  apply h
  have hd := congrArg String.data he
  rw [String.data_append, String.data_append] at hd
  exact congrArg (List.take k) (List.append_cancel_left hd)

theorem str_ne_of_length_ne {x y : String} (h : x.length ≠ y.length) :
    x ≠ y :=
  fun he => h (congrArg String.length he)

theorem str_ne_of_count_ne (c : Char) {x y : String}
    (h : x.data.count c ≠ y.data.count c) : x ≠ y :=
  fun he => h (congrArg (fun s => s.data.count c) he)

theorem timeout_ne_conn (n : String) : timeoutMsg n ≠ connErrorMsg n := by
  apply str_ne_of_length_ne
  have e1 : ("❌ " : String).length = 2 := by decide
  have e2 : (" timed out after 30 seconds" : String).length = 27 := by decide
  have e3 : ("❌ Could not connect to remote service for " : String).length
      = 42 := by decide
  simp only [timeoutMsg, connErrorMsg, String.length_append, e1, e2, e3]
  omega

theorem timeout_ne_http (n t : String) (status : Nat) :
    timeoutMsg n ≠ httpErrorMsg n status t := by
  have e2 : httpErrorMsg n status t
      = ("❌ " ++ n)
        ++ (" failed with HTTP " ++ (toString status ++ (": " ++ t))) := by
    simp [httpErrorMsg, String.append_assoc]
  rw [timeoutMsg, e2]
  apply append_ne_of_take_ne ("❌ " ++ n) _ _ 2
  have hx : (" timed out after 30 seconds" : String).data.take 2
      = [' ', 't'] := rfl
  have hy : (" failed with HTTP "
      ++ (toString status ++ (": " ++ t))).data.take 2 = [' ', 'f'] := rfl
  rw [hx, hy]
  decide

theorem timeout_ne_app (n e : String) : timeoutMsg n ≠ appErrorMsg n e := by
  have e2 : appErrorMsg n e = ("❌ " ++ n) ++ (" failed: " ++ e) := by
    simp [appErrorMsg, String.append_assoc]
  rw [timeoutMsg, e2]
  apply append_ne_of_take_ne ("❌ " ++ n) _ _ 2
  have hx : (" timed out after 30 seconds" : String).data.take 2
      = [' ', 't'] := rfl
  have hy : (" failed: " ++ e).data.take 2 = [' ', 'f'] := rfl
  rw [hx, hy]
  decide

theorem conn_ne_http (n t : String) (status : Nat) :
    connErrorMsg n ≠ httpErrorMsg n status t := by
  apply str_ne_of_count_ne ('H')
  have e1 : (("❌ Could not connect to remote service for " : String).data).count
      ('H') = 0 := by decide
  have e2 : (("❌ " : String).data).count ('H') = 0 := by decide
  have e3 : ((" failed with HTTP " : String).data).count ('H') = 1 := by decide
  have e4 : ((": " : String).data).count ('H') = 0 := by decide
  simp only [connErrorMsg, httpErrorMsg, String.data_append, List.count_append,
    e1, e2, e3, e4]
  omega

theorem conn_ne_app (n e : String) : connErrorMsg n ≠ appErrorMsg n e := by
  apply str_ne_of_count_ne (Char.ofNat 58)
  have e1 : (("❌ Could not connect to remote service for " : String).data).count
      (Char.ofNat 58) = 0 := by decide
  have e2 : (("❌ " : String).data).count (Char.ofNat 58) = 0 := by decide
  have e3 : ((" failed: " : String).data).count (Char.ofNat 58) = 1 := by decide
  simp only [connErrorMsg, appErrorMsg, String.data_append, List.count_append,
    e1, e2, e3]
  omega

theorem http_ne_app (n t e : String) (status : Nat) :
    httpErrorMsg n status t ≠ appErrorMsg n e := by
  have e1 : httpErrorMsg n status t
      = ("❌ " ++ n)
        ++ (" failed with HTTP " ++ (toString status ++ (": " ++ t))) := by
    simp [httpErrorMsg, String.append_assoc]
  have e2 : appErrorMsg n e = ("❌ " ++ n) ++ (" failed: " ++ e) := by
    simp [appErrorMsg, String.append_assoc]
  rw [e1, e2]
  apply append_ne_of_take_ne ("❌ " ++ n) _ _ 8
  have hx : (" failed with HTTP "
      ++ (toString status ++ (": " ++ t))).data.take 8
        = [' ', 'f', 'a', 'i', 'l', 'e', 'd', ' '] := rfl
  have hy : (" failed: " ++ e).data.take 8
      = [' ', 'f', 'a', 'i', 'l', 'e', 'd', ':'] := rfl
  rw [hx, hy]
  decide

/-- Claim C7: for a registered capability with a valid method, every
invocation outcome is returned as a formatted string (the model is a total
function — the source catches every exception class), and the four failure
classes — timeout, connection failure, non-200 status, and an
application-level error field — produce their four labelled strings, which
are pairwise distinct, so the caller can relay the specific cause. -/
theorem invoke_failures_distinct (st : RemoteToolsManager)
    (tool_name : String) (cfg : RawToolEntry) (ep m : String) (status : Nat)
    (text errMsg : String) (fs : List (String × JsonVal))
    (hc : lookupConfig st.tool_configs tool_name = some cfg)
    (he : cfg.endpoint = some ep) (hm : cfg.method = some m)
    (hmeth : (strUpper m == "POST" || strUpper m == "GET") = true)
    (hsucc : jsonGet fs "success" = some (JsonVal.jbool false))
    (herr : jsonGet fs "error" = some (JsonVal.jstr errMsg)) :
    (execute_remote_tool st tool_name HttpOutcome.timeout).fst
        = timeoutMsg tool_name
    ∧ (execute_remote_tool st tool_name HttpOutcome.connectionError).fst
        = connErrorMsg tool_name
    ∧ (execute_remote_tool st tool_name (HttpOutcome.httpError status text)).fst
        = httpErrorMsg tool_name status text
    ∧ (execute_remote_tool st tool_name
        (HttpOutcome.jsonOk (JsonVal.jobj fs))).fst
          = appErrorMsg tool_name errMsg
    ∧ timeoutMsg tool_name ≠ connErrorMsg tool_name
    ∧ timeoutMsg tool_name ≠ httpErrorMsg tool_name status text
    ∧ timeoutMsg tool_name ≠ appErrorMsg tool_name errMsg
    ∧ connErrorMsg tool_name ≠ httpErrorMsg tool_name status text
    ∧ connErrorMsg tool_name ≠ appErrorMsg tool_name errMsg
    ∧ httpErrorMsg tool_name status text ≠ appErrorMsg tool_name errMsg := by
  refine ⟨?_, ?_, ?_, ?_, timeout_ne_conn tool_name,
    timeout_ne_http tool_name text status, timeout_ne_app tool_name errMsg,
    conn_ne_http tool_name text status, conn_ne_app tool_name errMsg,
    http_ne_app tool_name text errMsg status⟩
  · simp [execute_remote_tool, hc, he, hm, hmeth]
  · simp [execute_remote_tool, hc, he, hm, hmeth]
  · simp [execute_remote_tool, hc, he, hm, hmeth]
  · simp [execute_remote_tool, hc, he, hm, hmeth, format_tool_response,
      hsucc, herr, jsonTruthy, renderVal]

/-- Witness for C7 at the concrete registry `regA`. -/
theorem invoke_failures_distinct_witness :
    (execute_remote_tool regA ("a") HttpOutcome.timeout).fst
        = timeoutMsg ("a")
    ∧ timeoutMsg ("a") ≠ connErrorMsg ("a") := by
  have h := invoke_failures_distinct regA ("a") entryA ("/a") ("GET") 500
    ("boom") ("bad")
    [("success", JsonVal.jbool false), ("error", JsonVal.jstr ("bad"))]
    rfl rfl rfl rfl rfl rfl
  exact ⟨h.1, h.2.2.2.2.1⟩

/-- Claim C8: invoking a name absent from the descriptor dictionary raises
`KeyError` before any request is built, which the generic handler returns
as the lookup-failure string naming the missing capability; no network
call is made, whatever the network would have answered. -/
theorem invoke_absent_no_network (st : RemoteToolsManager)
    (tool_name : String) (outcome : HttpOutcome)
    (h : lookupConfig st.tool_configs tool_name = none) :
    execute_remote_tool st tool_name outcome
      = (execErrorMsg tool_name (keyErrorStr tool_name), false) := by
  simp [execute_remote_tool, h]

/-- Witness for C8: invoking the unregistered name `zzz` on `regA`. -/
theorem invoke_absent_no_network_witness :
    execute_remote_tool regA ("zzz") HttpOutcome.timeout
      = (execErrorMsg ("zzz") (keyErrorStr ("zzz")), false) :=
  invoke_absent_no_network regA ("zzz") HttpOutcome.timeout rfl
